import Mathlib

/-!
Verification of the real-time chat backend core (connection registry,
stream-session protocol, auth broker, admission control) against its
natural-language specification.  Go maps are embedded as association lists,
machine times as exact numbers (`Int` for token timestamps, `Rat` seconds
for the rate limiter), and fallible operations as `Option`/`Except`.
-/

universe u v

/-- Lookup in an association list: the value of the first matching key
(embeds a read from a Go map). -/
def alistLookup {α : Type u} {β : Type v} [DecidableEq α] : List (α × β) → α → Option β
  | [], _ => none
  | (k, v) :: t, k' => if k = k' then some v else alistLookup t k'

/-- Insert into an association list: replace the first binding of the key,
or append a new binding (embeds a write to a Go map). -/
def alistInsert {α : Type u} {β : Type v} [DecidableEq α] : List (α × β) → α → β → List (α × β)
  | [], k, v => [(k, v)]
  | (k', v') :: t, k, v => if k' = k then (k, v) :: t else (k', v') :: alistInsert t k v

/-- Remove every binding of a key from an association list (embeds `delete`
on a Go map). -/
def alistErase {α : Type u} {β : Type v} [DecidableEq α] : List (α × β) → α → List (α × β)
  | [], _ => []
  | (k', v') :: t, k => if k' = k then alistErase t k else (k', v') :: alistErase t k

theorem alistLookup_insert_self {α : Type u} {β : Type v} [DecidableEq α]
    (l : List (α × β)) (k : α) (v : β) :
    alistLookup (alistInsert l k v) k = some v := by
  induction l with
  | nil => simp [alistInsert, alistLookup]
  | cons p t ih =>
    by_cases h : p.1 = k
    · simp [alistInsert, alistLookup, h]
    · simp [alistInsert, alistLookup, h, ih]

theorem alistLookup_insert_ne {α : Type u} {β : Type v} [DecidableEq α]
    (l : List (α × β)) (k k' : α) (v : β) (h : k' ≠ k) :
    alistLookup (alistInsert l k v) k' = alistLookup l k' := by
  have h' : ¬k = k' := fun hh => h hh.symm
  induction l with
  | nil => simp [alistInsert, alistLookup, h']
  | cons p t ih =>
    obtain ⟨k0, v0⟩ := p
    by_cases hp : k0 = k
    · subst hp
      simp [alistInsert, alistLookup, h']
    · simp [alistInsert, alistLookup, hp, ih]

theorem alistLookup_erase_self {α : Type u} {β : Type v} [DecidableEq α]
    (l : List (α × β)) (k : α) :
    alistLookup (alistErase l k) k = none := by
  induction l with
  | nil => simp [alistErase, alistLookup]
  | cons p t ih =>
    by_cases h : p.1 = k
    · simp [alistErase, h, ih]
    · simp [alistErase, alistLookup, h, ih]

theorem alistLookup_erase_ne {α : Type u} {β : Type v} [DecidableEq α]
    (l : List (α × β)) (k k' : α) (h : k' ≠ k) :
    alistLookup (alistErase l k) k' = alistLookup l k' := by
  have h' : ¬k = k' := fun hh => h hh.symm
  induction l with
  | nil => simp [alistErase]
  | cons p t ih =>
    obtain ⟨k0, v0⟩ := p
    by_cases hp : k0 = k
    · subst hp
      simp [alistErase, alistLookup, h', ih]
    · simp [alistErase, alistLookup, hp, ih]

theorem alistInsert_lookup_self {α : Type u} {β : Type v} [DecidableEq α]
    (l : List (α × β)) (k : α) (v : β) (h : alistLookup l k = some v) :
    alistInsert l k v = l := by
  induction l with
  | nil => simp [alistLookup] at h
  | cons p t ih =>
    obtain ⟨k0, v0⟩ := p
    by_cases hp : k0 = k
    · subst hp
      simp [alistLookup] at h
      simp [alistInsert, h]
    · simp only [alistLookup, if_neg hp] at h
      simp [alistInsert, hp, ih h]

theorem alistInsert_insert {α : Type u} {β : Type v} [DecidableEq α]
    (l : List (α × β)) (k : α) (v w : β) :
    alistInsert (alistInsert l k v) k w = alistInsert l k w := by
  induction l with
  | nil => simp [alistInsert]
  | cons p t ih =>
    by_cases hp : p.1 = k
    · simp [alistInsert, hp]
    · simp [alistInsert, hp, ih]

/-- Characters stripped by trimming, mirroring whitespace trimming of the
Go standard library on ASCII input. -/
def trimChars (l : List Char) : List Char :=
  ((l.dropWhile Char.isWhitespace).reverse.dropWhile Char.isWhitespace).reverse

/-- Embeds `normalize.Email` (src/internal/normalize/normalize.go): trim
surrounding whitespace, then lower-case. -/
def normalizeEmail (e : String) : String :=
  String.mk ((trimChars e.data).map Char.toLower)

theorem normalizeEmail_mixed_case :
    normalizeEmail ("  User.Case@Example.COM ") = ("user.case@example.com") := by decide

/-- Expansion of one character under Go `html.EscapeString`. -/
def escapeChar (c : Char) : List Char :=
  if c = ('&') then ("&amp;").data
  else if c = ('\'') then ("&#39;").data
  else if c = ('<') then ("&lt;").data
  else if c = ('>') then ("&gt;").data
  else if c = ('"') then ("&#34;").data
  else [c]

/-- Embeds Go `html.EscapeString` as used by `Server.ChatStream`
(src/cmd/api/handlers.go line 168). -/
def htmlEscapeString (s : String) : String :=
  String.mk (s.data.flatMap escapeChar)

theorem htmlEscapeString_lt :
    htmlEscapeString ("a<b") = ("a&lt;b") := by decide

theorem flatMap_escapeChar_of_no_special (l : List Char)
    (h : ∀ c ∈ l, c ≠ ('&') ∧ c ≠ ('\'') ∧ c ≠ ('<') ∧ c ≠ ('>') ∧ c ≠ ('"')) :
    l.flatMap escapeChar = l := by
  induction l with
  | nil => simp
  | cons c t ih =>
    obtain ⟨h1, h2, h3, h4, h5⟩ := h c (by simp)
    have ht : ∀ c' ∈ t, c' ≠ ('&') ∧ c' ≠ ('\'') ∧ c' ≠ ('<') ∧ c' ≠ ('>') ∧ c' ≠ ('"') :=
      fun c' hmem => h c' (by simp [hmem])
    simp [escapeChar, h1, h2, h3, h4, h5, ih ht]

theorem htmlEscapeString_of_no_special (s : String)
    (h : ∀ c ∈ s.data, c ≠ ('&') ∧ c ≠ ('\'') ∧ c ≠ ('<') ∧ c ≠ ('>') ∧ c ≠ ('"')) :
    htmlEscapeString s = s := by
  unfold htmlEscapeString
  obtain ⟨data⟩ := s
  rw [flatMap_escapeChar_of_no_special data h]

/-!
## Auth broker (src/internal/auth/jwt.go, cmd/api/main.go)

The HMAC signature is idealized: a signed token carries the secret it was
signed with in its `mac` field, and signature verification is equality of
that field with the verifier's candidate secret (a perfect MAC with no
collisions).  Timestamps are integer seconds.
-/

/-- JWT signing algorithm family carried in the token header.  `hs256` is
the symmetric HMAC family; `asym` stands for any non-HMAC (asymmetric)
method. -/
inductive JwtAlg where
  | hs256
  | asym
  deriving DecidableEq, Repr

/-- Embeds `auth.Claims` (src/internal/auth/jwt.go): user id, email, plus
the registered issued-at/expires-at claims. -/
structure AuthClaims where
  userID : String
  email : String
  issuedAt : Int
  expiresAt : Int
  deriving DecidableEq, Repr

/-- A parsed JWT: payload claims, header algorithm, optional header key id,
and the idealized MAC (the secret the token was signed with). -/
structure SignedToken where
  claims : AuthClaims
  alg : JwtAlg
  kid : Option String
  mac : String
  deriving DecidableEq, Repr

/-- Embeds `auth.JWTManager` (src/internal/auth/jwt.go): a single HMAC
secret and a token validity duration (seconds). -/
structure JWTManager where
  secretKey : String
  duration : Int
  deriving DecidableEq, Repr

/-- Embeds `auth.NewJWTManager`. -/
def NewJWTManager (secretKey : String) (duration : Int) : JWTManager :=
  { secretKey := secretKey, duration := duration }

/-- Embeds `JWTManager.GenerateToken` (src/internal/auth/jwt.go lines
34-60) at signing time `now`: the email is embedded verbatim in the
claims, the token is signed HS256 with the manager's secret, and the
expiry is `now + duration`.  Go's signing-error path cannot occur in the
model. -/
def JWTManager.GenerateToken (m : JWTManager) (userID email : String) (now : Int) :
    SignedToken × Int :=
  let expiresAt := now + m.duration
  let claims : AuthClaims :=
    { userID := userID, email := email, issuedAt := now, expiresAt := expiresAt }
  ({ claims := claims, alg := JwtAlg.hs256, kid := none, mac := m.secretKey }, expiresAt)

/-- Embeds `JWTManager.VerifyToken` (src/internal/auth/jwt.go lines
63-90) at verification time `now`: reject non-HMAC algorithms, check the
signature against the single secret, reject expired tokens (jwt/v5 treats
a token as valid only while `now < exp`), and return the claims. -/
def JWTManager.VerifyToken (m : JWTManager) (t : SignedToken) (now : Int) :
    Except String AuthClaims :=
  if t.alg ≠ JwtAlg.hs256 then Except.error ("unexpected signing method")
  else if t.mac ≠ m.secretKey then Except.error ("signature is invalid")
  else if t.claims.expiresAt ≤ now then Except.error ("token is expired")
  else Except.ok t.claims

/-- Modelled from the spec: the key-set JWT manager.  `cmd/api/main.go`
(lines 62-83) constructs it via `auth.NewJWTManagerFromKeys(keyMap,
activeKid, duration)` and the auth tests exercise key rotation and email
normalization against it, but its implementation is not under src; only
the single-secret revision of jwt.go is.  Modelled from §4.1 of the spec:
`SigningKeySet {keys: map[key_id → secret], active_key_id}`, issue signs
with the active key stamping its key id and normalizes the identity,
verify looks the key up by the token's key id (any configured key, not
only the active one) with a legacy-secret fallback for kid-less tokens. -/
structure KeyedJWTManager where
  keys : List (String × String)
  activeKid : String
  legacySecret : Option String
  duration : Int
  deriving DecidableEq, Repr

/-- Modelled from the spec: `auth.NewJWTManagerFromKeys` as called by
`cmd/api/main.go` (key map plus active key id; no legacy secret in this
mode). -/
def NewJWTManagerFromKeys (keys : List (String × String)) (activeKid : String)
    (duration : Int) : KeyedJWTManager :=
  { keys := keys, activeKid := activeKid, legacySecret := none, duration := duration }

/-- Modelled from the spec: issue under the key set (§4.1): sign the
claims with the currently active key, stamp the active key id into the
token header, normalize the identity before embedding it, expire after
`duration`.  Fails if the active key id names no configured key. -/
def KeyedJWTManager.GenerateToken (m : KeyedJWTManager) (userID email : String)
    (now : Int) : Except String (SignedToken × Int) :=
  match alistLookup m.keys m.activeKid with
  | none => Except.error ("active signing key not configured")
  | some secret =>
    let expiresAt := now + m.duration
    let claims : AuthClaims :=
      { userID := userID, email := normalizeEmail email, issuedAt := now,
        expiresAt := expiresAt }
    Except.ok
      ({ claims := claims, alg := JwtAlg.hs256, kid := some m.activeKid, mac := secret },
       expiresAt)

/-- Modelled from the spec: verify under the key set (§4.1): pin the HMAC
algorithm family, look the verification key up by the token's `key_id`
(any configured key), fall back to the legacy secret when no `key_id` is
present, reject bad signatures and expired tokens, return the claims. -/
def KeyedJWTManager.VerifyToken (m : KeyedJWTManager) (t : SignedToken) (now : Int) :
    Except String AuthClaims :=
  if t.alg ≠ JwtAlg.hs256 then Except.error ("unexpected signing method")
  else
    match (match t.kid with
           | some k => alistLookup m.keys k
           | none => m.legacySecret) with
    | none => Except.error ("unknown signing key")
    | some secret =>
      if t.mac ≠ secret then Except.error ("signature is invalid")
      else if t.claims.expiresAt ≤ now then Except.error ("token is expired")
      else Except.ok t.claims

/-- C1: a token issued by the auth broker while signing key k1 was active
still verifies (returning its claims) after the active key is rotated to
k2, provided k1's secret is still present in the configured key set and
the token has not expired. -/
theorem rotation_keeps_old_key_tokens_valid
    (keys keys2 : List (String × String)) (k1 k2 : String) (dur dur2 : Int)
    (uid email : String) (t0 now : Int) (tok : SignedToken) (exp : Int) (s : String)
    (hgen : (NewJWTManagerFromKeys keys k1 dur).GenerateToken uid email t0 =
      Except.ok (tok, exp))
    (hkeep : alistLookup keys k1 = some s)
    (hkeep2 : alistLookup keys2 k1 = some s)
    (hfresh : now < tok.claims.expiresAt) :
    (NewJWTManagerFromKeys keys2 k2 dur2).VerifyToken tok now = Except.ok tok.claims ∧
    tok.claims.email = normalizeEmail email := by
  unfold NewJWTManagerFromKeys KeyedJWTManager.GenerateToken at hgen
  simp only [hkeep] at hgen
  simp only [Except.ok.injEq, Prod.mk.injEq] at hgen
  obtain ⟨htok, _⟩ := hgen
  subst htok
  unfold NewJWTManagerFromKeys KeyedJWTManager.VerifyToken
  simp [hkeep2, not_le.mpr hfresh]

/-- C1 witness: with keys {k1, k2} and active k1, a token issued at time 0
verifies at time 100 under a manager whose active key has been rotated to
k2 but whose key set still contains k1's secret. -/
theorem rotation_keeps_old_key_tokens_valid_witness :
    (NewJWTManagerFromKeys [(("k1"), ("secret-one")), (("k2"), ("secret-two"))]
        ("k1") 300).GenerateToken ("u1") ("Rot@Example.COM") 0 =
      Except.ok
        ({ claims := { userID := ("u1"), email := ("rot@example.com"),
                       issuedAt := 0, expiresAt := 300 },
           alg := JwtAlg.hs256, kid := some ("k1"), mac := ("secret-one") }, 300) ∧
    ((NewJWTManagerFromKeys [(("k1"), ("secret-one")), (("k2"), ("secret-two"))]
        ("k2") 300).VerifyToken
        { claims := { userID := ("u1"), email := ("rot@example.com"),
                      issuedAt := 0, expiresAt := 300 },
          alg := JwtAlg.hs256, kid := some ("k1"), mac := ("secret-one") } 100 =
      Except.ok
        { userID := ("u1"), email := ("rot@example.com"),
          issuedAt := 0, expiresAt := 300 } ∧
     ({ claims := { userID := ("u1"), email := ("rot@example.com"),
                    issuedAt := 0, expiresAt := 300 },
        alg := JwtAlg.hs256, kid := some ("k1"),
        mac := ("secret-one") } : SignedToken).claims.email =
       normalizeEmail ("Rot@Example.COM")) :=
  ⟨by rfl,
   rotation_keeps_old_key_tokens_valid
     [(("k1"), ("secret-one")), (("k2"), ("secret-two"))]
     [(("k1"), ("secret-one")), (("k2"), ("secret-two"))]
     ("k1") ("k2") 300 300 ("u1") ("Rot@Example.COM") 0 100
     { claims := { userID := ("u1"), email := ("rot@example.com"),
                   issuedAt := 0, expiresAt := 300 },
       alg := JwtAlg.hs256, kid := some ("k1"), mac := ("secret-one") }
     300 ("secret-one") (by rfl) (by decide) (by decide) (by decide)⟩

/-- C2: evaluation of the source `GenerateToken`/`VerifyToken` at the
failing input.  The claim (and the repository's own test
`TestJWTManager_NormalizeEmailClaim`) requires the verified claims to
carry the normalized identity, but the code under src embeds the email
verbatim: a token issued for "User.Case@Example.COM" verifies to exactly
that mixed-case string, not to its normalized form. -/
theorem generateToken_embeds_email_verbatim :
    (NewJWTManager ("test-secret") 300).VerifyToken
        ((NewJWTManager ("test-secret") 300).GenerateToken
          ("0123456789ab0123456789ab") ("User.Case@Example.COM") 0).1 0 =
      Except.ok
        { userID := ("0123456789ab0123456789ab"), email := ("User.Case@Example.COM"),
          issuedAt := 0, expiresAt := 300 } ∧
    normalizeEmail ("User.Case@Example.COM") = ("user.case@example.com") ∧
    ("User.Case@Example.COM" : String) ≠ ("user.case@example.com") := by
  refine ⟨by rfl, by decide, by decide⟩

/-!
## Connection registry (src/cmd/api/hub.go)

`ConnectionHub` is generic over the connection type, like the Go hub is
generic over the `StreamSender` interface; delivery effects are made
explicit by a state-passing `send` function (Go mutates the stream object
behind a pointer, the model stores the updated connection back into the
registry entry).  `nextID`'s int64 is embedded as `Nat` (the counter only
ever increments by one per registration).
-/

/-- Embeds `v1.ChatStreamResponse` (the outbound stream message): message
id, sender, content, sent-at timestamp. -/
structure ChatStreamResponse where
  msgId : String
  fromEmail : String
  content : String
  sentAt : Int
  deriving DecidableEq, Repr

/-- Embeds `v1.ChatStreamRequest` (the inbound stream message): recipient
and content. -/
structure ChatStreamRequest where
  toEmail : String
  content : String
  deriving DecidableEq, Repr

/-- Embeds `ConnectionHub` (src/cmd/api/hub.go): email → (connection id →
connection), plus the id counter.  The mutex only serializes access and
has no single-threaded counterpart. -/
structure ConnectionHub (σ : Type u) where
  streams : List (String × List (Nat × σ))
  nextID : Nat

/-- Embeds `NewConnectionHub`. -/
def NewConnectionHub {σ : Type u} : ConnectionHub σ :=
  { streams := [], nextID := 0 }

/-- Embeds `ConnectionHub.Register` (src/cmd/api/hub.go lines 32-44):
ensure the email has an entry, increment the id counter, insert the
connection under the new id, return the id.  The email is used verbatim
as the key. -/
def ConnectionHub.Register {σ : Type u} (h : ConnectionHub σ) (email : String) (s : σ) :
    ConnectionHub σ × Nat :=
  let conns := (alistLookup h.streams email).getD []
  let id := h.nextID + 1
  ({ streams := alistInsert h.streams email (conns ++ [(id, s)]), nextID := id }, id)

/-- Embeds `ConnectionHub.Unregister` (src/cmd/api/hub.go lines 47-57):
if the email has an entry, delete the id from it, and delete the email's
entry entirely once its connection set is empty. -/
def ConnectionHub.Unregister {σ : Type u} (h : ConnectionHub σ) (email : String) (id : Nat) :
    ConnectionHub σ :=
  match alistLookup h.streams email with
  | none => h
  | some conns =>
    if (alistErase conns id).isEmpty then { h with streams := alistErase h.streams email }
    else { h with streams := alistInsert h.streams email (alistErase conns id) }

/-- The fan-out loop of `ConnectionHub.SendToUser` (src/cmd/api/hub.go
lines 79-86): send to each connection in order, keeping the first error
and the ids of every failed send, and threading each connection's updated
state. -/
def fanOut {σ : Type u} (send : σ → ChatStreamResponse → σ × Option String)
    (resp : ChatStreamResponse) :
    List (Nat × σ) → List (Nat × σ) × Option String × List Nat
  | [] => ([], none, [])
  | (id, st) :: t =>
    let (st', e) := send st resp
    let (rest, firstErr, failed) := fanOut send resp t
    ((id, st') :: rest,
     (match e with
      | some m => some m
      | none => firstErr),
     (match e with
      | some _ => id :: failed
      | none => failed))

/-- Embeds `ConnectionHub.SendToUser` (src/cmd/api/hub.go lines 63-95):
error if the email has no connections; otherwise send to every
connection (best effort), then unregister every failed id, and return the
first error encountered (none if all succeeded). -/
def ConnectionHub.SendToUser {σ : Type u} (send : σ → ChatStreamResponse → σ × Option String)
    (h : ConnectionHub σ) (email : String) (resp : ChatStreamResponse) :
    ConnectionHub σ × Option String :=
  match alistLookup h.streams email with
  | none => (h, some (("user ") ++ email ++ (" not connected")))
  | some conns =>
    if conns.isEmpty then (h, some (("user ") ++ email ++ (" not connected")))
    else
      let (conns', firstErr, failed) := fanOut send resp conns
      let h1 : ConnectionHub σ := { h with streams := alistInsert h.streams email conns' }
      let h2 := failed.foldl (fun hh id => hh.Unregister email id) h1
      (h2, firstErr)

/-- Test-double connection mirroring the repository's `fakeStream` /
`badSender` doubles: an inbox of received responses, a flag making every
send fail, and the error message a failing send reports. -/
structure FakeConn where
  inbox : List ChatStreamResponse
  broken : Bool
  failMsg : String
  deriving DecidableEq, Repr

/-- Send to a `FakeConn`: a broken connection reports its error and
changes nothing; a healthy one appends the response to its inbox. -/
def FakeConn.send (c : FakeConn) (r : ChatStreamResponse) : FakeConn × Option String :=
  if c.broken then (c, some c.failMsg)
  else ({ c with inbox := c.inbox ++ [r] }, none)

/-- `some` on a non-empty list, `none` on the empty one: the shape of a
hub lookup after empty entries are deleted. -/
def listOption {σ : Type u} : List (Nat × σ) → Option (List (Nat × σ))
  | [] => none
  | c :: t => some (c :: t)

/-- Remove a list of connection ids one after the other, the way
`SendToUser` unregisters its failed ids. -/
def dropIds {σ : Type u} : List (Nat × σ) → List Nat → List (Nat × σ)
  | l, [] => l
  | l, i :: t => dropIds (alistErase l i) t

theorem dropIds_nil_left {σ : Type u} (ids : List Nat) :
    dropIds ([] : List (Nat × σ)) ids = [] := by
  induction ids with
  | nil => rfl
  | cons i t ih => simp [dropIds, alistErase, ih]

theorem alistErase_eq_filter {σ : Type u} (l : List (Nat × σ)) (k : Nat) :
    alistErase l k = l.filter (fun p => !(decide (p.1 = k))) := by
  induction l with
  | nil => rfl
  | cons p t ih =>
    by_cases hp : p.1 = k
    · simp [alistErase, hp, ih]
    · simp [alistErase, hp, ih]

theorem dropIds_eq_filter {σ : Type u} (ids : List Nat) :
    ∀ l : List (Nat × σ), dropIds l ids = l.filter (fun p => !(decide (p.1 ∈ ids))) := by
  induction ids with
  | nil => intro l; simp [dropIds]
  | cons i t ih =>
    intro l
    rw [dropIds, ih, alistErase_eq_filter, List.filter_filter]
    apply List.filter_congr
    intro p _
    by_cases h1 : p.1 = i
    · simp [h1]
    · simp [h1]

theorem foldl_unregister_absent {σ : Type u} (L : List Nat) (h : ConnectionHub σ)
    (e : String) (hl : alistLookup h.streams e = none) :
    L.foldl (fun hh id => ConnectionHub.Unregister hh e id) h = h := by
  induction L with
  | nil => rfl
  | cons i t ih =>
    have hstep : ConnectionHub.Unregister h e i = h := by
      unfold ConnectionHub.Unregister
      rw [hl]
    rw [List.foldl_cons, hstep, ih]

theorem foldl_unregister_lookup {σ : Type u} (L : List Nat) :
    ∀ (h : ConnectionHub σ) (e : String) (cs : List (Nat × σ)),
      alistLookup h.streams e = some cs → cs ≠ [] →
      (alistLookup (L.foldl (fun hh id => ConnectionHub.Unregister hh e id) h).streams e
          = listOption (dropIds cs L)) ∧
      (∀ e', e' ≠ e →
        alistLookup (L.foldl (fun hh id => ConnectionHub.Unregister hh e id) h).streams e'
          = alistLookup h.streams e') ∧
      (L.foldl (fun hh id => ConnectionHub.Unregister hh e id) h).nextID = h.nextID := by
  induction L with
  | nil =>
    intro h e cs hl hne
    refine ⟨?_, fun e' _ => rfl, rfl⟩
    cases cs with
    | nil => exact absurd rfl hne
    | cons c t => simp [dropIds, listOption, hl]
  | cons i t ih =>
    intro h e cs hl hne
    have hunfold : ConnectionHub.Unregister h e i =
        (if (alistErase cs i).isEmpty then
          { h with streams := alistErase h.streams e }
        else { h with streams := alistInsert h.streams e (alistErase cs i) }) := by
      unfold ConnectionHub.Unregister
      rw [hl]
    by_cases hempty : (alistErase cs i).isEmpty
    · have hcs : alistErase cs i = [] := List.isEmpty_iff.mp hempty
      rw [List.foldl_cons, hunfold, if_pos hempty]
      have habs : alistLookup (alistErase h.streams e) e = none := alistLookup_erase_self _ _
      rw [foldl_unregister_absent t _ e habs]
      refine ⟨?_, fun e' he' => alistLookup_erase_ne _ _ _ he', rfl⟩
      rw [habs, dropIds, hcs, dropIds_nil_left]
      rfl
    · have hcs : alistErase cs i ≠ [] := fun hh => hempty (by simp [hh])
      rw [List.foldl_cons, hunfold, if_neg hempty]
      have hl1 : alistLookup (alistInsert h.streams e (alistErase cs i)) e =
          some (alistErase cs i) := alistLookup_insert_self _ _ _
      obtain ⟨h1, h2, h3⟩ :=
        ih { h with streams := alistInsert h.streams e (alistErase cs i) } e
          (alistErase cs i) hl1 hcs
      refine ⟨by rw [h1, dropIds], ?_, h3⟩
      intro e' he'
      rw [h2 e' he']
      exact alistLookup_insert_ne _ _ _ _ he'

/-- One connection after the fan-out attempt: a broken connection is left
as it was, a healthy one has the response appended to its inbox. -/
def updConn (r : ChatStreamResponse) (p : Nat × FakeConn) : Nat × FakeConn :=
  (p.1, (FakeConn.send p.2 r).1)

theorem fanOut_fake (r : ChatStreamResponse) (conns : List (Nat × FakeConn)) :
    fanOut FakeConn.send r conns =
      (conns.map (updConn r),
       (conns.find? (fun p => p.2.broken)).map (fun p => p.2.failMsg),
       (conns.filter (fun p => p.2.broken)).map Prod.fst) := by
  induction conns with
  | nil => rfl
  | cons p t ih =>
    obtain ⟨id, c⟩ := p
    by_cases hb : c.broken
    · simp [fanOut, FakeConn.send, hb, ih, updConn, List.find?]
    · simp [fanOut, FakeConn.send, hb, ih, updConn, List.find?]

theorem sendToUser_lookup_spec {σ : Type u} (send : σ → ChatStreamResponse → σ × Option String)
    (h : ConnectionHub σ) (e : String) (conns : List (Nat × σ)) (r : ChatStreamResponse)
    (hl : alistLookup h.streams e = some conns) (hne : conns ≠ []) :
    (ConnectionHub.SendToUser send h e r).2 = (fanOut send r conns).2.1 ∧
    (alistLookup (ConnectionHub.SendToUser send h e r).1.streams e
      = listOption (dropIds (fanOut send r conns).1 (fanOut send r conns).2.2)) ∧
    (∀ e', e' ≠ e →
      alistLookup (ConnectionHub.SendToUser send h e r).1.streams e'
        = alistLookup h.streams e') := by
  have hlen : (fanOut send r conns).1.length = conns.length := by
    clear hl hne
    induction conns with
    | nil => rfl
    | cons p t ih => simp [fanOut, ih]
  have hne1 : (fanOut send r conns).1 ≠ [] := by
    intro hh
    rw [hh] at hlen
    exact hne (List.length_eq_zero.mp hlen.symm)
  have hempty : conns.isEmpty = false := by
    cases conns with
    | nil => exact absurd rfl hne
    | cons c t => rfl
  have hl1 : alistLookup (alistInsert h.streams e (fanOut send r conns).1) e
      = some (fanOut send r conns).1 := alistLookup_insert_self _ _ _
  obtain ⟨g1, g2, _⟩ :=
    foldl_unregister_lookup (fanOut send r conns).2.2
      { h with streams := alistInsert h.streams e (fanOut send r conns).1 } e
      (fanOut send r conns).1 hl1 hne1
  constructor
  · unfold ConnectionHub.SendToUser
    rw [hl]
    simp [hempty]
  constructor
  · unfold ConnectionHub.SendToUser
    rw [hl]
    simp only [hempty, Bool.false_eq_true, if_false]
    exact g1
  · intro e' he'
    unfold ConnectionHub.SendToUser
    rw [hl]
    simp only [hempty, Bool.false_eq_true, if_false]
    rw [g2 e' he']
    exact alistLookup_insert_ne _ _ _ _ he'

theorem updConn_fst (r : ChatStreamResponse) (p : Nat × FakeConn) :
    (updConn r p).1 = p.1 := rfl

theorem updConn_broken (r : ChatStreamResponse) (p : Nat × FakeConn) :
    (updConn r p).2.broken = p.2.broken := by
  by_cases hb : p.2.broken
  · simp [updConn, FakeConn.send, hb]
  · simp [updConn, FakeConn.send, hb]

theorem fanOut_length {σ : Type u} (send : σ → ChatStreamResponse → σ × Option String)
    (r : ChatStreamResponse) (conns : List (Nat × σ)) :
    (fanOut send r conns).1.length = conns.length := by
  induction conns with
  | nil => rfl
  | cons p t ih => simp [fanOut, ih]

theorem dropIds_failed_eq_healthy (r : ChatStreamResponse)
    (conns : List (Nat × FakeConn)) (hnodup : (conns.map Prod.fst).Nodup) :
    dropIds (conns.map (updConn r)) ((conns.filter (fun p => p.2.broken)).map Prod.fst)
      = (conns.map (updConn r)).filter (fun p => !p.2.broken) := by
  rw [dropIds_eq_filter]
  apply List.filter_congr
  intro p hp
  obtain ⟨q, hq, hpq⟩ := List.mem_map.mp hp
  subst hpq
  rw [updConn_fst, updConn_broken]
  by_cases hb : q.2.broken
  · have hin : q.1 ∈ (conns.filter (fun p => p.2.broken)).map Prod.fst :=
      List.mem_map.mpr ⟨q, List.mem_filter.mpr ⟨hq, hb⟩, rfl⟩
    simp [hin, hb]
  · have hnin : q.1 ∉ (conns.filter (fun p => p.2.broken)).map Prod.fst := by
      intro hmem
      obtain ⟨w, hw, hwq⟩ := List.mem_map.mp hmem
      obtain ⟨hwc, hwb⟩ := List.mem_filter.mp hw
      have : w = q := List.inj_on_of_nodup_map hnodup hwc hq hwq
      rw [this] at hwb
      exact hb (by simpa using hwb)
    simp [hnin, hb]

/-- C4: on an identity with at least one registered connection, `SendToUser`
attempts delivery to every connection even when some fail (each healthy
connection receives the response), returns the first error encountered
(none when no send failed), evicts from the registry exactly the
connections whose send failed, touches no other identity, and a subsequent
`SendToUser` for the same identity reaches exactly the surviving
connections. -/
theorem sendToUser_best_effort_evicts_failed
    (h : ConnectionHub FakeConn) (e : String) (conns : List (Nat × FakeConn))
    (r r2 : ChatStreamResponse)
    (hl : alistLookup h.streams e = some conns) (hne : conns ≠ [])
    (hnodup : (conns.map Prod.fst).Nodup) :
    ((ConnectionHub.SendToUser FakeConn.send h e r).2
        = (conns.find? (fun p => p.2.broken)).map (fun p => p.2.failMsg)) ∧
    ((ConnectionHub.SendToUser FakeConn.send h e r).2 = none ↔
        ∀ p ∈ conns, p.2.broken = false) ∧
    (alistLookup (ConnectionHub.SendToUser FakeConn.send h e r).1.streams e
        = listOption ((conns.map (updConn r)).filter (fun p => !p.2.broken))) ∧
    (∀ e', e' ≠ e →
      alistLookup (ConnectionHub.SendToUser FakeConn.send h e r).1.streams e'
        = alistLookup h.streams e') ∧
    (∀ survivors,
      alistLookup (ConnectionHub.SendToUser FakeConn.send h e r).1.streams e
          = some survivors →
      ((ConnectionHub.SendToUser FakeConn.send
          (ConnectionHub.SendToUser FakeConn.send h e r).1 e r2).2 = none ∧
       alistLookup (ConnectionHub.SendToUser FakeConn.send
          (ConnectionHub.SendToUser FakeConn.send h e r).1 e r2).1.streams e
        = some (survivors.map (updConn r2)))) := by
  obtain ⟨s1, s2, s3⟩ := sendToUser_lookup_spec FakeConn.send h e conns r hl hne
  simp only [fanOut_fake] at s1 s2
  have herr : (ConnectionHub.SendToUser FakeConn.send h e r).2
      = (conns.find? (fun p => p.2.broken)).map (fun p => p.2.failMsg) := s1
  have hlook : alistLookup (ConnectionHub.SendToUser FakeConn.send h e r).1.streams e
      = listOption ((conns.map (updConn r)).filter (fun p => !p.2.broken)) := by
    rw [s2, dropIds_failed_eq_healthy r conns hnodup]
  refine ⟨herr, ?_, hlook, s3, ?_⟩
  · rw [herr]
    constructor
    · intro hnone
      have : conns.find? (fun p => p.2.broken) = none := by
        cases hfind : conns.find? (fun p => p.2.broken) with
        | none => rfl
        | some q => rw [hfind] at hnone; exact Option.noConfusion hnone
      intro p hp
      have := List.find?_eq_none.mp this p hp
      simpa using this
    · intro hall
      have : conns.find? (fun p => p.2.broken) = none :=
        List.find?_eq_none.mpr (fun p hp => by simp [hall p hp])
      rw [this]
      rfl
  · intro survivors hsurv
    have hs : listOption ((conns.map (updConn r)).filter (fun p => !p.2.broken))
        = some survivors := by rw [← hlook, hsurv]
    have hboth : (conns.map (updConn r)).filter (fun p => !p.2.broken) = survivors ∧
        survivors ≠ [] := by
      cases hc : (conns.map (updConn r)).filter (fun p => !p.2.broken) with
      | nil =>
        rw [hc] at hs
        simp [listOption] at hs
      | cons c t =>
        rw [hc] at hs
        have hct := Option.some.inj hs
        exact ⟨hct, by rw [← hct]; simp⟩
    obtain ⟨hsurv_eq, hsne⟩ := hboth
    have hall : ∀ p ∈ survivors, p.2.broken = false := by
      intro p hp
      rw [← hsurv_eq] at hp
      have := (List.mem_filter.mp hp).2
      simpa using this
    obtain ⟨t1, t2, _⟩ :=
      sendToUser_lookup_spec FakeConn.send
        (ConnectionHub.SendToUser FakeConn.send h e r).1 e survivors r2 hsurv hsne
    simp only [fanOut_fake] at t1 t2
    have hfind2 : survivors.find? (fun p => p.2.broken) = none :=
      List.find?_eq_none.mpr (fun p hp => by simp [hall p hp])
    have hfail2 : (survivors.filter (fun p => p.2.broken)).map Prod.fst = [] := by
      have : survivors.filter (fun p => p.2.broken) = [] :=
        List.filter_eq_nil_iff.mpr (fun p hp => by simp [hall p hp])
      rw [this]
      rfl
    constructor
    · rw [t1, hfind2]
      rfl
    · rw [t2, hfail2]
      cases hmap : survivors.map (updConn r2) with
      | nil =>
        exact absurd (List.map_eq_nil_iff.mp hmap) hsne
      | cons c t =>
        simp [dropIds, listOption]

/-- C4 witness: two connections for bob, one healthy and one broken: the
send reports the broken connection's error and the registry afterwards
holds exactly the healthy connection, with the response delivered to its
inbox. -/
theorem sendToUser_best_effort_evicts_failed_witness :
    (ConnectionHub.SendToUser FakeConn.send
        { streams := [(("bob@example.com"),
            [(1, { inbox := [], broken := false, failMsg := ("") }),
             (2, { inbox := [], broken := true, failMsg := ("broken") })])],
          nextID := 2 }
        ("bob@example.com")
        { msgId := ("m1"), fromEmail := ("a@x"), content := ("hi"), sentAt := 0 }).2
      = some (("broken")) ∧
    alistLookup (ConnectionHub.SendToUser FakeConn.send
        { streams := [(("bob@example.com"),
            [(1, { inbox := [], broken := false, failMsg := ("") }),
             (2, { inbox := [], broken := true, failMsg := ("broken") })])],
          nextID := 2 }
        ("bob@example.com")
        { msgId := ("m1"), fromEmail := ("a@x"), content := ("hi"), sentAt := 0 }).1.streams
        ("bob@example.com")
      = some [(1, { inbox := [{ msgId := ("m1"), fromEmail := ("a@x"), content := ("hi"),
                                sentAt := 0 }],
                    broken := false, failMsg := ("") })] := by
  obtain ⟨g1, _, g3, _, _⟩ :=
    sendToUser_best_effort_evicts_failed
      { streams := [(("bob@example.com"),
          [(1, { inbox := [], broken := false, failMsg := ("") }),
           (2, { inbox := [], broken := true, failMsg := ("broken") })])],
        nextID := 2 }
      ("bob@example.com")
      [(1, { inbox := [], broken := false, failMsg := ("") }),
       (2, { inbox := [], broken := true, failMsg := ("broken") })]
      { msgId := ("m1"), fromEmail := ("a@x"), content := ("hi"), sentAt := 0 }
      { msgId := ("m2"), fromEmail := ("a@x"), content := ("yo"), sentAt := 1 }
      (by rfl) (by decide) (by decide)
  exact ⟨by rw [g1]; rfl, by rw [g3]; rfl⟩

/-- C5 counterexample: `Register` keys the registry by the identity string
verbatim; after registering a healthy connection under the mixed-case
"Alice@Example.COM", a `SendToUser` addressed to the normalized form
fails with "not connected", so the claimed normalization inside register
does not happen. -/
theorem register_does_not_normalize_cex :
    (ConnectionHub.SendToUser FakeConn.send
        (ConnectionHub.Register (NewConnectionHub : ConnectionHub FakeConn)
          ("Alice@Example.COM") { inbox := [], broken := false, failMsg := ("") }).1
        (normalizeEmail ("Alice@Example.COM"))
        { msgId := ("m"), fromEmail := ("b@x"), content := ("x"), sentAt := 0 }).2
      = some (("user alice@example.com not connected")) ∧
    normalizeEmail ("Alice@Example.COM") ≠ ("Alice@Example.COM") := by
  refine ⟨by rfl, by decide⟩

/-- C5 amended: `Register` uses the identity string verbatim as the
registry key (normalization is the caller's concern): registering a
healthy connection under any identity — mixed-case included — and then
calling `SendToUser` with exactly that string reaches the registered
connection; the counterexample shows the normalized form does not reach
it. -/
theorem register_uses_identity_verbatim (e : String) (c : FakeConn)
    (r : ChatStreamResponse) (hc : c.broken = false) :
    ((ConnectionHub.SendToUser FakeConn.send
        (ConnectionHub.Register (NewConnectionHub : ConnectionHub FakeConn) e c).1 e r).2
      = none) ∧
    (alistLookup (ConnectionHub.SendToUser FakeConn.send
        (ConnectionHub.Register (NewConnectionHub : ConnectionHub FakeConn) e c).1 e r).1.streams
        e
      = some [(1, { c with inbox := c.inbox ++ [r] })]) := by
  have hl : alistLookup
      (ConnectionHub.Register (NewConnectionHub : ConnectionHub FakeConn) e c).1.streams e
      = some [(1, c)] := by
    unfold ConnectionHub.Register NewConnectionHub
    simp [alistLookup, alistInsert]
  obtain ⟨s1, s2, _⟩ :=
    sendToUser_lookup_spec FakeConn.send
      (ConnectionHub.Register (NewConnectionHub : ConnectionHub FakeConn) e c).1 e
      [(1, c)] r hl (by simp)
  simp only [fanOut_fake] at s1 s2
  constructor
  · rw [s1]
    simp [List.find?, hc]
  · rw [s2]
    simp [List.filter, List.find?, hc, dropIds, listOption, updConn, FakeConn.send]

/-- The registry invariant from the spec's data model: an identity key
maps only to a non-empty connection set. -/
def HubInv {σ : Type u} (h : ConnectionHub σ) : Prop :=
  ∀ e cs, alistLookup h.streams e = some cs → cs ≠ []

theorem listOption_some {σ : Type u} (l cs : List (Nat × σ)) (h : listOption l = some cs) :
    cs ≠ [] := by
  cases l with
  | nil => exact Option.noConfusion h
  | cons c t =>
    have := Option.some.inj h
    rw [← this]
    simp

theorem register_preserves_inv {σ : Type u} (h : ConnectionHub σ) (e : String) (c : σ)
    (hinv : HubInv h) : HubInv (h.Register e c).1 := by
  intro e' cs hl
  unfold ConnectionHub.Register at hl
  by_cases he : e' = e
  · subst he
    rw [alistLookup_insert_self] at hl
    have := Option.some.inj hl
    rw [← this]
    simp
  · rw [alistLookup_insert_ne _ _ _ _ he] at hl
    exact hinv e' cs hl

theorem unregister_preserves_inv {σ : Type u} (h : ConnectionHub σ) (e : String) (i : Nat)
    (hinv : HubInv h) : HubInv (h.Unregister e i) := by
  intro e' cs hl
  unfold ConnectionHub.Unregister at hl
  split at hl
  · exact hinv e' cs hl
  · rename_i conns hlk
    split at hl
    · rename_i hE
      by_cases he : e' = e
      · subst he
        rw [alistLookup_erase_self] at hl
        exact Option.noConfusion hl
      · rw [alistLookup_erase_ne _ _ _ he] at hl
        exact hinv e' cs hl
    · rename_i hE
      by_cases he : e' = e
      · subst he
        rw [alistLookup_insert_self] at hl
        have := Option.some.inj hl
        rw [← this]
        intro hh
        rw [hh] at hE
        exact hE rfl
      · rw [alistLookup_insert_ne _ _ _ _ he] at hl
        exact hinv e' cs hl

theorem sendToUser_absent {σ : Type u} (send : σ → ChatStreamResponse → σ × Option String)
    (h : ConnectionHub σ) (e : String) (r : ChatStreamResponse)
    (hl : alistLookup h.streams e = none) :
    ConnectionHub.SendToUser send h e r = (h, some (("user ") ++ e ++ (" not connected"))) := by
  unfold ConnectionHub.SendToUser
  rw [hl]

theorem sendToUser_empty {σ : Type u} (send : σ → ChatStreamResponse → σ × Option String)
    (h : ConnectionHub σ) (e : String) (r : ChatStreamResponse)
    (hl : alistLookup h.streams e = some []) :
    ConnectionHub.SendToUser send h e r = (h, some (("user ") ++ e ++ (" not connected"))) := by
  unfold ConnectionHub.SendToUser
  rw [hl]
  rfl

theorem sendToUser_preserves_inv {σ : Type u}
    (send : σ → ChatStreamResponse → σ × Option String) (h : ConnectionHub σ) (e : String)
    (r : ChatStreamResponse) (hinv : HubInv h) :
    HubInv (ConnectionHub.SendToUser send h e r).1 := by
  cases hlk : alistLookup h.streams e with
  | none => rw [sendToUser_absent send h e r hlk]; exact hinv
  | some conns =>
    cases conns with
    | nil => rw [sendToUser_empty send h e r hlk]; exact hinv
    | cons c t =>
      obtain ⟨_, s2, s3⟩ := sendToUser_lookup_spec send h e (c :: t) r hlk (by simp)
      intro e' cs hl
      by_cases he : e' = e
      · subst he
        rw [s2] at hl
        exact listOption_some _ _ hl
      · rw [s3 e' he] at hl
        exact hinv e' cs hl

/-- One public registry operation, with sends resolved against the
test-double connection type. -/
inductive HubOp where
  | reg (email : String) (c : FakeConn)
  | unreg (email : String) (id : Nat)
  | sendTo (email : String) (r : ChatStreamResponse)

/-- Apply one public registry operation. -/
def applyHubOp (h : ConnectionHub FakeConn) : HubOp → ConnectionHub FakeConn
  | HubOp.reg e c => (h.Register e c).1
  | HubOp.unreg e i => h.Unregister e i
  | HubOp.sendTo e r => (ConnectionHub.SendToUser FakeConn.send h e r).1

/-- The registry state after a finite sequence of public operations,
starting from a fresh hub. -/
def applyHubOps (ops : List HubOp) : ConnectionHub FakeConn :=
  ops.foldl applyHubOp NewConnectionHub

/-- C6: after every finite sequence of register / unregister / send
operations from a fresh registry, an identity key present in the map has
a non-empty connection set (and, conversely, an identity whose set would
be empty has no key: its lookup is `none`), i.e. no reachable state holds
an identity mapped to an empty connection set. -/
theorem hub_reachable_no_empty_entry (ops : List HubOp) :
    ∀ e cs, alistLookup (applyHubOps ops).streams e = some cs → cs ≠ [] := by
  have main : ∀ (l : List HubOp) (h : ConnectionHub FakeConn),
      HubInv h → HubInv (l.foldl applyHubOp h) := by
    intro l
    induction l with
    | nil => intro h hinv; exact hinv
    | cons op t ih =>
      intro h hinv
      rw [List.foldl_cons]
      apply ih
      cases op with
      | reg e c => exact register_preserves_inv _ _ _ hinv
      | unreg e i => exact unregister_preserves_inv _ _ _ hinv
      | sendTo e r => exact sendToUser_preserves_inv _ _ _ _ hinv
  exact main ops NewConnectionHub (fun e cs hl => Option.noConfusion hl)

/-- C6 witness: after registering one connection for "a", that identity's
connection set is non-empty. -/
theorem hub_reachable_no_empty_entry_witness :
    ([(1, ({ inbox := [], broken := false, failMsg := ("") } : FakeConn))]
      : List (Nat × FakeConn)) ≠ [] :=
  hub_reachable_no_empty_entry
    [HubOp.reg ("a") { inbox := [], broken := false, failMsg := ("") }]
    ("a") [(1, { inbox := [], broken := false, failMsg := ("") })] (by rfl)

theorem alistErase_idem {α : Type u} {β : Type v} [DecidableEq α]
    (l : List (α × β)) (k : α) :
    alistErase (alistErase l k) k = alistErase l k := by
  induction l with
  | nil => rfl
  | cons p t ih =>
    by_cases hp : p.1 = k
    · simp [alistErase, hp, ih]
    · simp [alistErase, hp, ih]

theorem alistErase_of_not_mem {α : Type u} {β : Type v} [DecidableEq α]
    (l : List (α × β)) (k : α) (h : k ∉ l.map Prod.fst) :
    alistErase l k = l := by
  induction l with
  | nil => rfl
  | cons p t ih =>
    simp only [List.map_cons, List.mem_cons, not_or] at h
    obtain ⟨h1, h2⟩ := h
    have hp : ¬p.1 = k := fun hh => h1 hh.symm
    simp [alistErase, hp, ih h2]

theorem unregister_unregister {σ : Type u} (h : ConnectionHub σ) (e : String) (i : Nat) :
    (h.Unregister e i).Unregister e i = h.Unregister e i := by
  cases hlk : alistLookup h.streams e with
  | none =>
    have hid : h.Unregister e i = h := by
      unfold ConnectionHub.Unregister
      rw [hlk]
    rw [hid]
    exact hid
  | some cs =>
    have hstep : h.Unregister e i =
        (if (alistErase cs i).isEmpty then { h with streams := alistErase h.streams e }
         else { h with streams := alistInsert h.streams e (alistErase cs i) }) := by
      unfold ConnectionHub.Unregister
      rw [hlk]
    by_cases hE : (alistErase cs i).isEmpty
    · rw [hstep, if_pos hE]
      have habs : alistLookup (alistErase h.streams e) e = none := alistLookup_erase_self _ _
      unfold ConnectionHub.Unregister
      rw [habs]
    · rw [hstep, if_neg hE]
      have hl1 : alistLookup
          ({ h with streams := alistInsert h.streams e (alistErase cs i) }
            : ConnectionHub σ).streams e
          = some (alistErase cs i) := alistLookup_insert_self _ _ _
      have hstep2 : ({ h with streams := alistInsert h.streams e (alistErase cs i) }
            : ConnectionHub σ).Unregister e i =
          (if (alistErase (alistErase cs i) i).isEmpty then
            { streams := alistErase (alistInsert h.streams e (alistErase cs i)) e,
              nextID := h.nextID }
          else
            { streams := alistInsert (alistInsert h.streams e (alistErase cs i)) e
                (alistErase (alistErase cs i) i),
              nextID := h.nextID }) := by
        unfold ConnectionHub.Unregister
        rw [hl1]
      rw [hstep2, alistErase_idem, if_neg hE, alistInsert_insert]

/-- C7: unregistering an (identity, connection id) pair that is not
currently registered is a no-op (never an error, every other registered
connection for every identity unchanged) on any registry state satisfying
the no-empty-entry invariant; and unregister is idempotent on every state
and every argument pair. -/
theorem unregister_absent_noop_and_idempotent (h : ConnectionHub FakeConn) (e : String)
    (i : Nat)
    (hw : ∀ e' cs, alistLookup h.streams e' = some cs → cs ≠ [])
    (habs : ∀ cs, alistLookup h.streams e = some cs → i ∉ cs.map Prod.fst) :
    h.Unregister e i = h ∧
    (∀ (h2 : ConnectionHub FakeConn) (e2 : String) (i2 : Nat),
      (h2.Unregister e2 i2).Unregister e2 i2 = h2.Unregister e2 i2) := by
  refine ⟨?_, fun h2 e2 i2 => unregister_unregister h2 e2 i2⟩
  cases hlk : alistLookup h.streams e with
  | none =>
    unfold ConnectionHub.Unregister
    rw [hlk]
  | some cs =>
    have hcs : alistErase cs i = cs := alistErase_of_not_mem cs i (habs cs hlk)
    have hne : cs ≠ [] := hw e cs hlk
    have hE : ¬(alistErase cs i).isEmpty := by
      rw [hcs]
      cases cs with
      | nil => exact absurd rfl hne
      | cons c t => simp
    have hstep : h.Unregister e i =
        (if (alistErase cs i).isEmpty then { h with streams := alistErase h.streams e }
         else { h with streams := alistInsert h.streams e (alistErase cs i) }) := by
      unfold ConnectionHub.Unregister
      rw [hlk]
    rw [hstep, if_neg hE, hcs, alistInsert_lookup_self h.streams e cs hlk]

/-- C7 witness: on a registry holding one connection for "a", unregistering
the absent pair ("a", 5) is a no-op, and a repeated unregister of any pair
equals a single one. -/
theorem unregister_absent_noop_and_idempotent_witness :
    (ConnectionHub.Unregister
        { streams := [(("a"), [(1, ({ inbox := [], broken := false, failMsg := ("") }
            : FakeConn))])], nextID := 1 } ("a") 5
      = { streams := [(("a"), [(1, ({ inbox := [], broken := false, failMsg := ("") }
            : FakeConn))])], nextID := 1 }) ∧
    (∀ (h2 : ConnectionHub FakeConn) (e2 : String) (i2 : Nat),
      (h2.Unregister e2 i2).Unregister e2 i2 = h2.Unregister e2 i2) :=
  unregister_absent_noop_and_idempotent
    { streams := [(("a"), [(1, { inbox := [], broken := false, failMsg := ("") })])],
      nextID := 1 } ("a") 5
    (by
      intro e' cs hl
      simp only [alistLookup] at hl
      by_cases he : ("a" : String) = e'
      · rw [if_pos he] at hl
        have := Option.some.inj hl
        rw [← this]
        simp
      · rw [if_neg he] at hl
        exact Option.noConfusion hl)
    (by
      intro cs hl
      simp only [alistLookup, if_pos rfl] at hl
      have := Option.some.inj hl
      rw [← this]
      decide)

/-!
## Stream session protocol (src/cmd/api/handlers.go `Server.ChatStream`)

The receive loop is embedded over a list of inbound items (`Except.error`
for a transport receive error, end of list for clean EOF), with the
user-directory and message-store collaborators as oracle functions, the
sender's own stream as a `FakeConn`, and the shared hub threaded through
the state.  In Go the sender's registered hub entry aliases the sender
stream object; the model keeps them as separate connections, which agrees
with the source on every behaviour that does not involve a session
messaging its own identity.
-/

/-- The gRPC status codes the stream loop can terminate with. -/
inductive GrpcCode where
  | internal
  | notFound
  deriving DecidableEq, Repr

/-- Embeds the subset of `data.Message` used by the stream loop: assigned
id, sender, recipient, content, sent-at. -/
structure Message where
  id : String
  fromEmail : String
  toEmail : String
  content : String
  sentAt : Int
  deriving DecidableEq, Repr

/-- Embeds `MessagesStore.SaveMessage` (src/unnamed/part_004 lines 27-50)
minus the database write: emails are stored normalized, the content is
stored verbatim, and the store-assigned id is passed in (`newId` stands
for MongoDB's generated object id). -/
def SaveMessage (fromEmail toEmail content : String) (sentAt : Int) (newId : String) :
    Message :=
  { id := newId, fromEmail := normalizeEmail fromEmail, toEmail := normalizeEmail toEmail,
    content := content, sentAt := sentAt }

/-- Embeds building the `ChatStreamResponse` acknowledgement from the
persisted message (src/cmd/api/handlers.go lines 174-179). -/
def respOfMsg (m : Message) : ChatStreamResponse :=
  { msgId := m.id, fromEmail := m.fromEmail, content := m.content, sentAt := m.sentAt }

/-- The mutable state of one stream session: the shared hub and the
sender's own stream. -/
structure SessionState where
  hub : ConnectionHub FakeConn
  sender : FakeConn

/-- Embeds the receive loop of `Server.ChatStream` (src/cmd/api/handlers.go
lines 148-197): per inbound message, verify the recipient exists (error →
Internal, missing → NotFound), persist with HTML-escaped content (error →
Internal), acknowledge the sender (send failure → Internal), then fan the
same response out to the recipient best-effort, ignoring any fan-out
error, and continue with the next receive; end of input returns no
error. -/
def chatStreamLoop (users : String → Except String Bool)
    (save : String → String → String → Int → Except String Message)
    (senderEmail : String) (now : Int) :
    SessionState → List (Except String ChatStreamRequest) → Option GrpcCode × SessionState
  | st, [] => (none, st)
  | st, (Except.error _) :: _ => (some GrpcCode.internal, st)
  | st, (Except.ok req) :: rest =>
    match users req.toEmail with
    | Except.error _ => (some GrpcCode.internal, st)
    | Except.ok false => (some GrpcCode.notFound, st)
    | Except.ok true =>
      match save senderEmail req.toEmail (htmlEscapeString req.content) now with
      | Except.error _ => (some GrpcCode.internal, st)
      | Except.ok saved =>
        match FakeConn.send st.sender (respOfMsg saved) with
        | (sender', some _) => (some GrpcCode.internal, { st with sender := sender' })
        | (sender', none) =>
          chatStreamLoop users save senderEmail now
            { hub := (ConnectionHub.SendToUser FakeConn.send st.hub req.toEmail
                (respOfMsg saved)).1,
              sender := sender' } rest

/-- C3: when the recipient exists, persistence succeeds and the sender's
own acknowledgement send succeeds, a failing fan-out to the recipient is
not surfaced to the sender and does not terminate the session: the sender
still receives exactly its acknowledgement and the loop continues with the
remaining input, its outcome independent of the fan-out error. -/
theorem fanout_failure_not_surfaced
    (users : String → Except String Bool)
    (save : String → String → String → Int → Except String Message)
    (senderEmail : String) (now : Int) (st : SessionState)
    (req : ChatStreamRequest) (rest : List (Except String ChatStreamRequest))
    (saved : Message)
    (hex : users req.toEmail = Except.ok true)
    (hsave : save senderEmail req.toEmail (htmlEscapeString req.content) now
      = Except.ok saved)
    (hsender : st.sender.broken = false)
    (hfail : (ConnectionHub.SendToUser FakeConn.send st.hub req.toEmail
        (respOfMsg saved)).2.isSome) :
    chatStreamLoop users save senderEmail now st (Except.ok req :: rest)
      = chatStreamLoop users save senderEmail now
          { hub := (ConnectionHub.SendToUser FakeConn.send st.hub req.toEmail
              (respOfMsg saved)).1,
            sender := { st.sender with
              inbox := st.sender.inbox ++ [respOfMsg saved] } } rest := by
  simp [chatStreamLoop, hex, hsave, FakeConn.send, hsender]

/-- C3 witness: a sender with one message for a recipient with zero
registered connections: persistence and the acknowledgement succeed, the
fan-out fails with "not connected", and the session ends cleanly with the
acknowledgement in the sender's inbox. -/
theorem fanout_failure_not_surfaced_witness :
    chatStreamLoop (fun _ => Except.ok true)
        (fun f t c n => Except.ok { id := ("m1"), fromEmail := f, toEmail := t,
                                    content := c, sentAt := n })
        ("alice@x") 0
        { hub := NewConnectionHub, sender := { inbox := [], broken := false, failMsg := ("") } }
        [Except.ok { toEmail := ("carol@x"), content := ("hi") }]
      = chatStreamLoop (fun _ => Except.ok true)
          (fun f t c n => Except.ok { id := ("m1"), fromEmail := f, toEmail := t,
                                      content := c, sentAt := n })
          ("alice@x") 0
          { hub := (ConnectionHub.SendToUser FakeConn.send
              (NewConnectionHub : ConnectionHub FakeConn) ("carol@x")
              (respOfMsg { id := ("m1"), fromEmail := ("alice@x"), toEmail := ("carol@x"),
                           content := htmlEscapeString ("hi"), sentAt := 0 })).1,
            sender := { inbox := [respOfMsg { id := ("m1"),
                                              fromEmail := ("alice@x"),
                                              toEmail := ("carol@x"),
                                              content := htmlEscapeString ("hi"),
                                              sentAt := 0 }],
                        broken := false, failMsg := ("") } } [] :=
  fanout_failure_not_surfaced
    (fun _ => Except.ok true)
    (fun f t c n => Except.ok { id := ("m1"), fromEmail := f, toEmail := t,
                                content := c, sentAt := n })
    ("alice@x") 0
    { hub := NewConnectionHub, sender := { inbox := [], broken := false, failMsg := ("") } }
    { toEmail := ("carol@x"), content := ("hi") } []
    { id := ("m1"), fromEmail := ("alice@x"), toEmail := ("carol@x"),
      content := htmlEscapeString ("hi"), sentAt := 0 }
    (by rfl) (by rfl) (by rfl) (by rfl)

/-- C10: for a processed inbound message, the content that is persisted
(the content argument of the store's save, kept verbatim by
`SaveMessage`), the content acknowledged to the sender, and the content
fanned out to the recipient are all the HTML-escaped form of the received
content — the same response value is acked and fanned out — and a content
with no HTML-special characters passes through unchanged. -/
theorem chat_content_is_html_escaped
    (users : String → Except String Bool) (senderEmail : String) (now : Int)
    (newId : String) (st : SessionState) (req : ChatStreamRequest)
    (rest : List (Except String ChatStreamRequest))
    (hex : users req.toEmail = Except.ok true)
    (hsender : st.sender.broken = false) :
    ((SaveMessage senderEmail req.toEmail (htmlEscapeString req.content) now newId).content
      = htmlEscapeString req.content) ∧
    ((respOfMsg (SaveMessage senderEmail req.toEmail (htmlEscapeString req.content) now
        newId)).content = htmlEscapeString req.content) ∧
    (chatStreamLoop users
        (fun f t c n => (Except.ok (SaveMessage f t c n newId) : Except String Message))
        senderEmail now st (Except.ok req :: rest)
      = chatStreamLoop users
          (fun f t c n => (Except.ok (SaveMessage f t c n newId) : Except String Message))
          senderEmail now
          { hub := (ConnectionHub.SendToUser FakeConn.send st.hub req.toEmail
              (respOfMsg (SaveMessage senderEmail req.toEmail (htmlEscapeString req.content)
                now newId))).1,
            sender := { st.sender with
              inbox := st.sender.inbox ++
                [respOfMsg (SaveMessage senderEmail req.toEmail
                  (htmlEscapeString req.content) now newId)] } } rest) ∧
    (∀ s : String,
      (∀ c ∈ s.data, c ≠ ('&') ∧ c ≠ ('\'') ∧ c ≠ ('<') ∧ c ≠ ('>') ∧ c ≠ ('"')) →
      htmlEscapeString s = s) := by
  refine ⟨rfl, rfl, ?_, htmlEscapeString_of_no_special⟩
  simp [chatStreamLoop, hex, FakeConn.send, hsender]

/-- C10 witness: a message whose content is "a<b" is persisted, acked and
fanned out as "a&lt;b", and a content without special characters is left
unchanged. -/
theorem chat_content_is_html_escaped_witness :
    ((SaveMessage ("alice@x") ("bob@x") (htmlEscapeString ("a<b")) 0 ("m1")).content
      = htmlEscapeString ("a<b")) ∧
    ((respOfMsg (SaveMessage ("alice@x") ("bob@x") (htmlEscapeString ("a<b")) 0
        ("m1"))).content = htmlEscapeString ("a<b")) ∧
    (chatStreamLoop (fun _ => Except.ok true)
        (fun f t c n => (Except.ok (SaveMessage f t c n ("m1")) : Except String Message))
        ("alice@x") 0
        { hub := NewConnectionHub,
          sender := { inbox := [], broken := false, failMsg := ("") } }
        (Except.ok { toEmail := ("bob@x"), content := ("a<b") } :: [])
      = chatStreamLoop (fun _ => Except.ok true)
          (fun f t c n => (Except.ok (SaveMessage f t c n ("m1")) : Except String Message))
          ("alice@x") 0
          { hub := (ConnectionHub.SendToUser FakeConn.send
              (NewConnectionHub : ConnectionHub FakeConn) ("bob@x")
              (respOfMsg (SaveMessage ("alice@x") ("bob@x") (htmlEscapeString ("a<b")) 0
                ("m1")))).1,
            sender := { inbox := [] ++
                          [respOfMsg (SaveMessage ("alice@x") ("bob@x")
                                       (htmlEscapeString ("a<b")) 0 ("m1"))],
                        broken := false, failMsg := ("") } } []) ∧
    (∀ s : String,
      (∀ c ∈ s.data, c ≠ ('&') ∧ c ≠ ('\'') ∧ c ≠ ('<') ∧ c ≠ ('>') ∧ c ≠ ('"')) →
      htmlEscapeString s = s) :=
  chat_content_is_html_escaped (fun _ => Except.ok true) ("alice@x") 0 ("m1")
    { hub := NewConnectionHub, sender := { inbox := [], broken := false, failMsg := ("") } }
    { toEmail := ("bob@x"), content := ("a<b") } [] (by rfl) (by rfl)

/-!
## Admission control (src/internal/middleware/ratelimit.go)

The `golang.org/x/time/rate` token bucket is embedded with exact rational
arithmetic, time measured in seconds: on each `Allow`, the bucket first
advances its token count by the elapsed time times the refill rate,
capped at the burst capacity, then consumes one token if at least one is
available (state is left unchanged on a failed reservation).  A freshly
created limiter behaves as a full bucket, matching the library's
zero-time advance on first use.  `Allow` is a total function — the
admission decision never blocks.
-/

/-- The token-bucket state of `golang.org/x/time/rate.Limiter` as used by
the store: refill rate (tokens per second), burst capacity, current
tokens, and the time of the last state update. -/
structure RateLimiter where
  limit : Rat
  burst : Nat
  tokens : Rat
  last : Rat
  deriving DecidableEq, Repr

/-- One `Allow` on the bucket at time `now`: advance, cap at burst (the
cap is written as an `if` rather than `min` so it evaluates), consume if
a full token is available. -/
def RateLimiter.allowAt (l : RateLimiter) (now : Rat) : RateLimiter × Bool :=
  if 1 ≤ (if (l.burst : Rat) < l.tokens + (now - l.last) * l.limit then (l.burst : Rat)
          else l.tokens + (now - l.last) * l.limit) then
    ({ l with
        tokens := (if (l.burst : Rat) < l.tokens + (now - l.last) * l.limit
                   then (l.burst : Rat)
                   else l.tokens + (now - l.last) * l.limit) - 1,
        last := now }, true)
  else (l, false)

/-- Embeds `clientEntry` (ratelimit.go lines 26-29): limiter plus
last-seen time. -/
structure ClientEntry where
  limiter : RateLimiter
  lastSeen : Rat
  deriving DecidableEq, Repr

/-- Embeds `LimiterStore` (ratelimit.go lines 17-24): refill rate, burst,
per-key entries, and the sweep interval passed at construction. -/
structure LimiterStore where
  limit : Rat
  burst : Nat
  clients : List (String × ClientEntry)
  cleanupInterval : Rat
  deriving DecidableEq, Repr

/-- Embeds `NewLimiterStore` (ratelimit.go lines 33-46): a non-positive
per-minute limit falls back to 60; the refill rate is `limitPerMinute`
tokens per minute, i.e. `limitPerMinute / 60` per second.  The background
sweep goroutine itself is modelled by explicit `cleanupPass` calls. -/
def NewLimiterStore (limitPerMinute : Int) (burst : Nat) (cleanupInterval : Rat) :
    LimiterStore :=
  let lpm : Int := if limitPerMinute ≤ 0 then 60 else limitPerMinute
  { limit := (lpm : Rat) / 60, burst := burst, clients := [],
    cleanupInterval := cleanupInterval }

/-- Embeds `LimiterStore.getLimiter` fused with `Allow` (ratelimit.go
lines 74-90) at time `now`: a known key refreshes `lastSeen` and consults
its limiter; an unseen key lazily gets a fresh limiter (full bucket) that
is consulted immediately. -/
def LimiterStore.Allow (s : LimiterStore) (key : String) (now : Rat) :
    LimiterStore × Bool :=
  match alistLookup s.clients key with
  | some e =>
    let (l', ok) := e.limiter.allowAt now
    ({ s with clients := alistInsert s.clients key { limiter := l', lastSeen := now } }, ok)
  | none =>
    let l : RateLimiter :=
      { limit := s.limit, burst := s.burst, tokens := (s.burst : Rat), last := now }
    let (l', ok) := l.allowAt now
    ({ s with clients := alistInsert s.clients key { limiter := l', lastSeen := now } }, ok)

/-- `n` consecutive `Allow` calls for one key at one instant, returning
the final store and the list of decisions in order. -/
def allowSeq (s : LimiterStore) (key : String) (now : Rat) : Nat → LimiterStore × List Bool
  | 0 => (s, [])
  | n + 1 =>
    ((allowSeq (s.Allow key now).1 key now n).1,
     (s.Allow key now).2 :: (allowSeq (s.Allow key now).1 key now n).2)

theorem allowAt_same_time (lim : Rat) (B : Nat) (t now : Rat) (htok : t ≤ (B : Rat)) :
    RateLimiter.allowAt { limit := lim, burst := B, tokens := t, last := now } now =
      (if 1 ≤ t then
        ({ limit := lim, burst := B, tokens := t - 1, last := now }, true)
       else ({ limit := lim, burst := B, tokens := t, last := now }, false)) := by
  unfold RateLimiter.allowAt
  have h2 : (if ((B : Rat)) < t + (now - now) * lim then ((B : Rat))
             else t + (now - now) * lim) = t := by
    have h3 : t + (now - now) * lim = t := by ring
    rw [h3]
    exact if_neg (not_lt.mpr htok)
  simp only [h2]

theorem allow_known_entry (s : LimiterStore) (k : String) (now lim : Rat) (B : Nat)
    (t ls : Rat)
    (hl : alistLookup s.clients k =
      some { limiter := { limit := lim, burst := B, tokens := t, last := now },
             lastSeen := ls })
    (htok : t ≤ (B : Rat)) :
    s.Allow k now =
      (if 1 ≤ t then
        ({ s with clients := alistInsert s.clients k
                              { limiter := { limit := lim, burst := B, tokens := t - 1,
                                             last := now },
                                lastSeen := now } }, true)
       else
        ({ s with clients := alistInsert s.clients k
                              { limiter := { limit := lim, burst := B, tokens := t,
                                             last := now },
                                lastSeen := now } }, false)) := by
  unfold LimiterStore.Allow
  simp only [hl]
  rw [allowAt_same_time lim B t now htok]
  by_cases ht : 1 ≤ t
  · simp [ht]
  · simp [ht]

theorem allow_fresh_key (s : LimiterStore) (k : String) (now : Rat)
    (hl : alistLookup s.clients k = none) :
    s.Allow k now =
      (if 1 ≤ ((s.burst : Nat) : Rat) then
        ({ s with clients := alistInsert s.clients k
                              { limiter := { limit := s.limit, burst := s.burst,
                                             tokens := (s.burst : Rat) - 1, last := now },
                                lastSeen := now } }, true)
       else
        ({ s with clients := alistInsert s.clients k
                              { limiter := { limit := s.limit, burst := s.burst,
                                             tokens := (s.burst : Rat), last := now },
                                lastSeen := now } }, false)) := by
  unfold LimiterStore.Allow
  simp only [hl]
  rw [allowAt_same_time s.limit s.burst (s.burst : Rat) now (le_refl _)]
  by_cases ht : 1 ≤ ((s.burst : Nat) : Rat)
  · simp [ht]
  · simp [ht]

theorem allowSeq_drains (m : Nat) :
    ∀ (s : LimiterStore) (k : String) (now lim : Rat) (B : Nat) (ls : Rat),
      alistLookup s.clients k =
        some { limiter := { limit := lim, burst := B, tokens := ((m : Nat) : Rat),
                            last := now },
               lastSeen := ls } →
      ((m : Nat) : Rat) ≤ (B : Rat) →
      (allowSeq s k now (m + 1)).2 = List.replicate m true ++ [false] := by
  induction m with
  | zero =>
    intro s k now lim B ls hl hle
    have hallow := allow_known_entry s k now lim B (((0 : Nat) : Rat)) ls hl hle
    rw [if_neg (by push_cast; norm_num)] at hallow
    show ((allowSeq (s.Allow k now).1 k now 0).1,
      (s.Allow k now).2 :: (allowSeq (s.Allow k now).1 k now 0).2).2 = [false]
    rw [hallow]
    rfl
  | succ n ih =>
    intro s k now lim B ls hl hle
    have h1 : (1 : Rat) ≤ (((n + 1 : Nat)) : Rat) := by
      exact_mod_cast Nat.succ_le_succ (Nat.zero_le n)
    have hallow := allow_known_entry s k now lim B (((n + 1 : Nat)) : Rat) ls hl hle
    rw [if_pos h1] at hallow
    have htt : (((n + 1 : Nat)) : Rat) - 1 = ((n : Nat) : Rat) := by push_cast; ring
    rw [htt] at hallow
    have hl' : alistLookup ({ s with clients := alistInsert s.clients k
                                        { limiter := { limit := lim, burst := B,
                                                       tokens := ((n : Nat) : Rat),
                                                       last := now },
                                          lastSeen := now } } : LimiterStore).clients k =
        some { limiter := { limit := lim, burst := B, tokens := ((n : Nat) : Rat),
                            last := now },
               lastSeen := now } :=
      alistLookup_insert_self _ _ _
    have hle' : ((n : Nat) : Rat) ≤ (B : Rat) :=
      le_trans (by exact_mod_cast Nat.le_succ n) hle
    have htail := ih ({ s with clients := alistInsert s.clients k
                                  { limiter := { limit := lim, burst := B,
                                                 tokens := ((n : Nat) : Rat),
                                                 last := now },
                                    lastSeen := now } } : LimiterStore) k now lim B now hl' hle'
    show ((allowSeq (s.Allow k now).1 k now (n + 1)).1,
      (s.Allow k now).2 :: (allowSeq (s.Allow k now).1 k now (n + 1)).2).2
      = List.replicate (n + 1) true ++ [false]
    rw [hallow]
    show true :: (allowSeq _ k now (n + 1)).2 = List.replicate (n + 1) true ++ [false]
    rw [htail]
    simp [List.replicate_succ]

/-- C8: for a store configured with any requests-per-minute value and
burst B, and a key never seen before (fresh store, so its bucket is
created lazily — the key has no entry beforehand — at full burst
capacity), the first B consecutive `Allow` calls at one instant (no
refill time) all return true and the (B+1)-th returns false; `Allow` is a
total function, so the decision never blocks. -/
theorem admission_allows_burst_then_rejects (N : Int) (B : Nat) (ci : Rat) (k : String)
    (now : Rat) :
    (alistLookup (NewLimiterStore N B ci).clients k = none) ∧
    ((allowSeq (NewLimiterStore N B ci) k now (B + 1)).2
      = List.replicate B true ++ [false]) := by
  refine ⟨rfl, ?_⟩
  have hfresh := allow_fresh_key (NewLimiterStore N B ci) k now rfl
  cases B with
  | zero =>
    have hb : (NewLimiterStore N 0 ci).burst = 0 := rfl
    rw [if_neg (by rw [hb]; norm_num)] at hfresh
    show ((allowSeq ((NewLimiterStore N 0 ci).Allow k now).1 k now 0).1,
      ((NewLimiterStore N 0 ci).Allow k now).2 ::
        (allowSeq ((NewLimiterStore N 0 ci).Allow k now).1 k now 0).2).2
      = List.replicate 0 true ++ [false]
    rw [hfresh]
    rfl
  | succ n =>
    have h1 : (1 : Rat) ≤ (((NewLimiterStore N (n + 1) ci).burst : Nat) : Rat) := by
      show (1 : Rat) ≤ ((n + 1 : Nat) : Rat)
      exact_mod_cast Nat.succ_le_succ (Nat.zero_le n)
    rw [if_pos h1] at hfresh
    have htt : (((NewLimiterStore N (n + 1) ci).burst : Nat) : Rat) - 1
        = ((n : Nat) : Rat) := by
      show ((n + 1 : Nat) : Rat) - 1 = ((n : Nat) : Rat)
      push_cast
      ring
    rw [htt] at hfresh
    have hl' : alistLookup
        ({ NewLimiterStore N (n + 1) ci with
            clients := alistInsert (NewLimiterStore N (n + 1) ci).clients k
                        { limiter := { limit := (NewLimiterStore N (n + 1) ci).limit,
                                       burst := (NewLimiterStore N (n + 1) ci).burst,
                                       tokens := ((n : Nat) : Rat),
                                       last := now },
                          lastSeen := now } } : LimiterStore).clients k =
        some { limiter := { limit := (NewLimiterStore N (n + 1) ci).limit,
                            burst := (NewLimiterStore N (n + 1) ci).burst,
                            tokens := ((n : Nat) : Rat),
                            last := now },
               lastSeen := now } :=
      alistLookup_insert_self _ _ _
    have hle' : ((n : Nat) : Rat) ≤ (((NewLimiterStore N (n + 1) ci).burst : Nat) : Rat) := by
      show ((n : Nat) : Rat) ≤ ((n + 1 : Nat) : Rat)
      exact_mod_cast Nat.le_succ n
    have htail := allowSeq_drains n
      ({ NewLimiterStore N (n + 1) ci with
          clients := alistInsert (NewLimiterStore N (n + 1) ci).clients k
                      { limiter := { limit := (NewLimiterStore N (n + 1) ci).limit,
                                     burst := (NewLimiterStore N (n + 1) ci).burst,
                                     tokens := ((n : Nat) : Rat),
                                     last := now },
                        lastSeen := now } } : LimiterStore) k now
      (NewLimiterStore N (n + 1) ci).limit (NewLimiterStore N (n + 1) ci).burst now hl' hle'
    show ((allowSeq ((NewLimiterStore N (n + 1) ci).Allow k now).1 k now (n + 1)).1,
      ((NewLimiterStore N (n + 1) ci).Allow k now).2 ::
        (allowSeq ((NewLimiterStore N (n + 1) ci).Allow k now).1 k now (n + 1)).2).2
      = List.replicate (n + 1) true ++ [false]
    rw [hfresh]
    show true :: (allowSeq _ k now (n + 1)).2 = List.replicate (n + 1) true ++ [false]
    rw [htail]
    simp [List.replicate_succ]

/-- The deletion filter of one sweep pass: keep exactly the entries whose
`lastSeen` is not before the cutoff. -/
def dropStale : List (String × ClientEntry) → Rat → List (String × ClientEntry)
  | [], _ => []
  | (k, e) :: t, cutoff =>
    if e.lastSeen < cutoff then dropStale t cutoff
    else (k, e) :: dropStale t cutoff

/-- Embeds one tick of `LimiterStore.cleanupLoop` (ratelimit.go lines
48-66) at time `now`: the cutoff is hard-coded to ten minutes before now
(`time.Now().Add(-10 * time.Minute)`), and every entry last seen before
the cutoff is deleted; the constructor's `cleanupInterval` only paces the
ticker and plays no part in the cutoff. -/
def LimiterStore.cleanupPass (s : LimiterStore) (now : Rat) : LimiterStore :=
  { s with clients := dropStale s.clients (now - 10 * 60) }

theorem mem_dropStale (l : List (String × ClientEntry)) (cutoff : Rat) (k : String)
    (e : ClientEntry) :
    (k, e) ∈ dropStale l cutoff ↔ ((k, e) ∈ l ∧ ¬(e.lastSeen < cutoff)) := by
  induction l with
  | nil => simp [dropStale]
  | cons p t ih =>
    obtain ⟨k0, e0⟩ := p
    by_cases h0 : e0.lastSeen < cutoff
    · rw [show dropStale ((k0, e0) :: t) cutoff = dropStale t cutoff from by
        simp only [dropStale]; rw [if_pos h0]]
      rw [ih]
      constructor
      · rintro ⟨hm, hne⟩
        exact ⟨List.mem_cons_of_mem _ hm, hne⟩
      · rintro ⟨hor, hne⟩
        rcases List.mem_cons.mp hor with heq | hm
        · have he : e = e0 := (Prod.mk.injEq _ _ _ _ ▸ heq).2
          rw [he] at hne
          exact absurd h0 hne
        · exact ⟨hm, hne⟩
    · rw [show dropStale ((k0, e0) :: t) cutoff = (k0, e0) :: dropStale t cutoff from by
        simp only [dropStale]; rw [if_neg h0]]
      constructor
      · intro hm
        rcases List.mem_cons.mp hm with heq | hm'
        · have he : e = e0 := (Prod.mk.injEq _ _ _ _ ▸ heq).2
          refine ⟨List.mem_cons.mpr (Or.inl heq), ?_⟩
          rw [he]
          exact h0
        · obtain ⟨hmt, hne⟩ := ih.mp hm'
          exact ⟨List.mem_cons_of_mem _ hmt, hne⟩
      · rintro ⟨hor, hne⟩
        rcases List.mem_cons.mp hor with heq | hm
        · exact List.mem_cons.mpr (Or.inl heq)
        · exact List.mem_cons_of_mem _ (ih.mpr ⟨hm, hne⟩)

/-- No entry is stale: the sweep keeps the whole list. -/
theorem dropStale_eq_self (l : List (String × ClientEntry)) (cutoff : Rat)
    (h : ∀ p ∈ l, ¬(p.2.lastSeen < cutoff)) : dropStale l cutoff = l := by
  induction l with
  | nil => rfl
  | cons p t ih =>
    obtain ⟨k0, e0⟩ := p
    have h0 : ¬(e0.lastSeen < cutoff) := h (k0, e0) (by simp)
    have ht : ∀ q ∈ t, ¬(q.2.lastSeen < cutoff) := fun q hq => h q (by simp [hq])
    simp only [dropStale]
    rw [if_neg h0, ih ht]

/-- C9 counterexample: a store constructed with a one-minute
`cleanupInterval` (as `cmd/api/main.go` does) holding an entry last seen
at time 0; at time 300 the entry has been idle for five minutes — longer
than the constructed interval — yet the sweep pass keeps every entry,
because the staleness cutoff is the hard-coded ten minutes, not the
configured value. -/
theorem cleanup_window_not_configured_cex :
    ((((NewLimiterStore 10 3 60).Allow ("k") 0).1.cleanupInterval = 60)) ∧
    ((300 : Rat) - 0 > ((NewLimiterStore 10 3 60).Allow ("k") 0).1.cleanupInterval) ∧
    ((((NewLimiterStore 10 3 60).Allow ("k") 0).1.cleanupPass 300).clients
      = (((NewLimiterStore 10 3 60).Allow ("k") 0).1).clients) ∧
    ((alistLookup (((NewLimiterStore 10 3 60).Allow ("k") 0).1).clients ("k")).isSome
      = true) := by
  refine ⟨rfl, ?_, ?_, by rfl⟩
  · show (300 : Rat) - 0 > (60 : Rat)
    norm_num
  · show dropStale (((NewLimiterStore 10 3 60).Allow ("k") 0).1).clients (300 - 10 * 60)
      = (((NewLimiterStore 10 3 60).Allow ("k") 0).1).clients
    apply dropStale_eq_self
    intro p hp
    have hp2 : p ∈ [(("k"),
        ({ limiter := (RateLimiter.allowAt
              { limit := (NewLimiterStore 10 3 60).limit,
                burst := (NewLimiterStore 10 3 60).burst,
                tokens := (((NewLimiterStore 10 3 60).burst : Nat) : Rat),
                last := 0 } 0).1,
           lastSeen := 0 } : ClientEntry))] := hp
    rw [List.mem_singleton] at hp2
    rw [hp2]
    show ¬((0 : Rat) < 300 - 10 * 60)
    norm_num

/-- C9 amended: each sweep pass at time `now` removes exactly the entries
whose `lastSeen` is older than a fixed ten-minute window (`now - 600`
seconds) and keeps every other entry regardless of its bucket state; the
`cleanupInterval` given at construction paces the sweep but is not the
staleness window. -/
theorem cleanup_pass_fixed_ten_minute_window (s : LimiterStore) (now : Rat) (k : String)
    (e : ClientEntry) :
    ((k, e) ∈ (s.cleanupPass now).clients ↔
      ((k, e) ∈ s.clients ∧ ¬(e.lastSeen < now - 10 * 60))) ∧
    (s.cleanupPass now).cleanupInterval = s.cleanupInterval := by
  exact ⟨mem_dropStale s.clients (now - 10 * 60) k e, rfl⟩

/-- C5 amended witness: registering under the mixed-case
"Alice@Example.COM" and sending to exactly that string reaches the
connection. -/
theorem register_uses_identity_verbatim_witness :
    ((ConnectionHub.SendToUser FakeConn.send
        (ConnectionHub.Register (NewConnectionHub : ConnectionHub FakeConn)
          ("Alice@Example.COM") { inbox := [], broken := false, failMsg := ("") }).1
        ("Alice@Example.COM")
        { msgId := ("m"), fromEmail := ("b@x"), content := ("x"), sentAt := 0 }).2
      = none) ∧
    (alistLookup (ConnectionHub.SendToUser FakeConn.send
        (ConnectionHub.Register (NewConnectionHub : ConnectionHub FakeConn)
          ("Alice@Example.COM") { inbox := [], broken := false, failMsg := ("") }).1
        ("Alice@Example.COM")
        { msgId := ("m"), fromEmail := ("b@x"), content := ("x"), sentAt := 0 }).1.streams
        ("Alice@Example.COM")
      = some [(1, { inbox := [{ msgId := ("m"), fromEmail := ("b@x"), content := ("x"),
                                sentAt := 0 }],
                    broken := false, failMsg := ("") })]) :=
  register_uses_identity_verbatim ("Alice@Example.COM")
    { inbox := [], broken := false, failMsg := ("") }
    { msgId := ("m"), fromEmail := ("b@x"), content := ("x"), sentAt := 0 } (by rfl)
